import Mathlib

/-!
Shallow embedding of the dfdaemon download-orchestration core
(src/src/storage/mod.rs, src/src/task/mod.rs) and proofs about it.

External I/O (the content store's writes, the backend HTTP client, the remote
peer transport, the output file's seeks, clock ticks) is passed in as explicit
outcome parameters; metadata-store primitives (the metadata module is not among
the given sources) are modelled from the spec, with their state threaded
explicitly and a transition log recording which primitives ran.
-/

deriving instance DecidableEq for Except

namespace Dfdaemon

/-- Error kinds of the client (`Error`), restricted to the variants the
embedded functions produce. -/
inductive Err where
  | invalidParameter
  | invalidContentLength
  | taskNotFound (id : String)
  | pieceNotFound (id : String)
  | pieceDigestMismatch
  | waitForPieceFinishedTimeout (id : String)
  | http (statusCode : Nat)
  | unexpectedResponse
  | unknown (msg : String)
  deriving Repr, DecidableEq

/-- State of a piece record (`metadata::Piece` lifecycle, spec §3). -/
inductive PieceState where
  | pending
  | finished
  | failed
  deriving Repr, DecidableEq

/-- A piece metadata record (`metadata::Piece`), with the fields the embedded
code reads. -/
structure Piece where
  number : Nat
  offset : Nat
  length : Nat
  digest : String
  parentId : Option String
  state : PieceState
  deriving Repr, DecidableEq

/-- Embeds `metadata::Piece::is_finished`. -/
def Piece.is_finished (p : Piece) : Bool :=
  p.state == PieceState.finished

/-- Embeds `Digest::new(Algorithm::Sha256, hash).to_string()`: the canonical
algorithm-prefixed digest string (spec glossary). -/
def digestToString (hash : String) : String :=
  "sha256:" ++ hash

/-- Embeds `metadata::Metadata::piece_id`: canonical string form
`"{task_id}-{number}"` (spec §3). -/
def piece_id (taskId : String) (number : Nat) : String :=
  taskId ++ "-" ++ toString number

/-- One metadata-store transition, logged so theorems can speak about which
primitives a Storage call performed. -/
inductive MetaEvent where
  | downloadPieceStartedEv (taskId : String) (number : Nat)
  | downloadPieceFinishedEv (taskId : String) (number : Nat) (offset : Nat)
      (length : Nat) (digest : String) (parentId : Option String)
  | downloadPieceFailedEv (taskId : String) (number : Nat)
  | uploadTaskStartedEv (taskId : String)
  | uploadTaskFinishedEv (taskId : String)
  | uploadTaskFailedEv (taskId : String)
  | uploadPieceStartedEv (taskId : String) (number : Nat)
  | uploadPieceFinishedEv (taskId : String) (number : Nat)
  | uploadPieceFailedEv (taskId : String) (number : Nat)
  deriving Repr, DecidableEq

/-- The metadata store's state: piece records keyed by `(task_id, number)`,
plus the log of transitions performed. -/
structure MetaState where
  pieces : List (String × Piece)
  events : List MetaEvent
  deriving Repr, DecidableEq

/-- Modelled from the spec: `metadata::Metadata::get_piece` (§4.1; the metadata
module is not among the given sources) — lookup by `(task_id, number)`. -/
def Metadata.get_piece (st : MetaState) (taskId : String) (number : Nat) :
    Option Piece :=
  (st.pieces.find? (fun e => e.1 == taskId && e.2.number == number)).map (·.2)

/-- Modelled from the spec: `metadata::Metadata::download_piece_started` (§4.1)
reserves a Pending piece record. -/
def Metadata.download_piece_started (st : MetaState) (taskId : String)
    (number : Nat) : MetaState :=
  { pieces := (taskId,
      { number := number, offset := 0, length := 0, digest := "",
        parentId := none, state := PieceState.pending }) ::
      st.pieces.filter (fun e => !(e.1 == taskId && e.2.number == number)),
    events := st.events ++ [MetaEvent.downloadPieceStartedEv taskId number] }

/-- Modelled from the spec: `metadata::Metadata::download_piece_finished` (§4.1)
commits a Finished record; rejects if a prior committed record disagrees on any
field. -/
def Metadata.download_piece_finished (st : MetaState) (taskId : String)
    (number : Nat) (offset : Nat) (length : Nat) (digest : String)
    (parentId : Option String) : Except Err MetaState :=
  let rec' : Piece :=
    { number := number, offset := offset, length := length, digest := digest,
      parentId := parentId, state := PieceState.finished }
  match Metadata.get_piece st taskId number with
  | some old =>
      if old.is_finished && old != rec' then
        Except.error (Err.unknown "conflicting piece commit")
      else
        Except.ok
          { pieces := (taskId, rec') ::
              st.pieces.filter (fun e => !(e.1 == taskId && e.2.number == number)),
            events := st.events ++
              [MetaEvent.downloadPieceFinishedEv taskId number offset length
                digest parentId] }
  | none =>
      Except.ok
        { pieces := (taskId, rec') :: st.pieces,
          events := st.events ++
            [MetaEvent.downloadPieceFinishedEv taskId number offset length
              digest parentId] }

/-- Modelled from the spec: `metadata::Metadata::upload_task_started` (§4.1),
a logged transition. -/
def Metadata.upload_task_started (st : MetaState) (taskId : String) : MetaState :=
  { st with events := st.events ++ [MetaEvent.uploadTaskStartedEv taskId] }

/-- Modelled from the spec: `metadata::Metadata::upload_task_finished` (§4.1). -/
def Metadata.upload_task_finished (st : MetaState) (taskId : String) : MetaState :=
  { st with events := st.events ++ [MetaEvent.uploadTaskFinishedEv taskId] }

/-- Modelled from the spec: `metadata::Metadata::upload_task_failed` (§4.1). -/
def Metadata.upload_task_failed (st : MetaState) (taskId : String) : MetaState :=
  { st with events := st.events ++ [MetaEvent.uploadTaskFailedEv taskId] }

/-- Modelled from the spec: `metadata::Metadata::upload_piece_started` (§4.1). -/
def Metadata.upload_piece_started (st : MetaState) (taskId : String)
    (number : Nat) : MetaState :=
  { st with events := st.events ++ [MetaEvent.uploadPieceStartedEv taskId number] }

/-- Modelled from the spec: `metadata::Metadata::upload_piece_finished` (§4.1). -/
def Metadata.upload_piece_finished (st : MetaState) (taskId : String)
    (number : Nat) : MetaState :=
  { st with events := st.events ++ [MetaEvent.uploadPieceFinishedEv taskId number] }

/-- Modelled from the spec: `metadata::Metadata::upload_piece_failed` (§4.1). -/
def Metadata.upload_piece_failed (st : MetaState) (taskId : String)
    (number : Nat) : MetaState :=
  { st with events := st.events ++ [MetaEvent.uploadPieceFailedEv taskId number] }

/-- Outcome of `content::Content::write_piece` (spec §4.2): the actual byte
count read to EOF and the streaming SHA-256. The content store's I/O is
external, so the outcome is a parameter of the Storage functions. -/
structure WritePieceResponse where
  length : Nat
  hash : String
  deriving Repr, DecidableEq

/-- A bounded reader over a committed piece's bytes, as returned by
`content::Content::read_piece` (spec §4.2). -/
structure PieceReader where
  taskId : String
  offset : Nat
  length : Nat
  deriving Repr, DecidableEq

/-- Embeds `Storage::wait_for_piece_finished` (src/src/storage/mod.rs:222).
`polls` is the sequence of `get_piece` observations at the successive 500ms
interval ticks of the shared metadata store (a concurrent writer may be
mutating it between ticks); exhausting the list is the `piece_timeout` expiry
firing before the next tick. -/
def Storage.wait_for_piece_finished (pieceId : String) :
    List (Option Piece) → Except Err Unit
  | [] => Except.error (Err.waitForPieceFinishedTimeout pieceId)
  | none :: _ => Except.error (Err.pieceNotFound pieceId)
  | some p :: rest =>
      if p.is_finished then Except.ok ()
      else Storage.wait_for_piece_finished pieceId rest

/-- Embeds `Storage::download_piece_started` (src/src/storage/mod.rs:101):
waits for the piece; on any wait error (not found or timeout) it creates the
piece metadata via `metadata.download_piece_started`. -/
def Storage.download_piece_started (st : MetaState) (taskId : String)
    (number : Nat) (polls : List (Option Piece)) : MetaState × Except Err Unit :=
  match Storage.wait_for_piece_finished (piece_id taskId number) polls with
  | Except.ok _ => (st, Except.ok ())
  | Except.error _ => (Metadata.download_piece_started st taskId number, Except.ok ())

/-- Embeds `Storage::download_piece_from_source_finished`
(src/src/storage/mod.rs:111): the content-store write's outcome is `response`;
the commit uses the caller-supplied `length` and the call returns `length`. -/
def Storage.download_piece_from_source_finished (st : MetaState) (taskId : String)
    (number : Nat) (offset : Nat) (length : Nat) (response : WritePieceResponse) :
    MetaState × Except Err Nat :=
  let digest := digestToString response.hash
  match Metadata.download_piece_finished st taskId number offset length digest
      none with
  | Except.ok st' => (st', Except.ok length)
  | Except.error e => (st, Except.error e)

/-- Embeds `Storage::download_piece_from_remote_peer_finished`
(src/src/storage/mod.rs:134): writes, then compares the streamed digest with
`expected_digest`; on mismatch returns `PieceDigestMismatch` without
committing; otherwise commits the actual written byte count. -/
def Storage.download_piece_from_remote_peer_finished (st : MetaState)
    (taskId : String) (number : Nat) (offset : Nat) (expectedDigest : String)
    (parentId : String) (response : WritePieceResponse) :
    MetaState × Except Err Nat :=
  let length := response.length
  let digest := digestToString response.hash
  if expectedDigest ≠ digest then (st, Except.error Err.pieceDigestMismatch)
  else
    match Metadata.download_piece_finished st taskId number offset length digest
        (some parentId) with
    | Except.ok st' => (st', Except.ok length)
    | Except.error e => (st, Except.error e)

/-- Embeds `Storage::upload_piece` (src/src/storage/mod.rs:170). `polls` are
the wait loop's observations of the shared store; `afterWait` is what
`metadata.get_piece` observes after a successful wait (the record may have
been committed by a concurrent writer). The content read is modelled as
producing a `PieceReader` descriptor. -/
def Storage.upload_piece (st : MetaState) (taskId : String) (number : Nat)
    (polls : List (Option Piece)) (afterWait : Option Piece) :
    MetaState × Except Err PieceReader :=
  let st1 := Metadata.upload_task_started st taskId
  let st2 := Metadata.upload_piece_started st1 taskId number
  match Storage.wait_for_piece_finished (piece_id taskId number) polls with
  | Except.error e => (st2, Except.error e)
  | Except.ok _ =>
    match afterWait with
    | some piece =>
        let reader : PieceReader :=
          { taskId := taskId, offset := piece.offset, length := piece.length }
        let st3 := Metadata.upload_piece_finished st2 taskId number
        let st4 := Metadata.upload_task_finished st3 taskId
        (st4, Except.ok reader)
    | none =>
        let st3 := Metadata.upload_piece_failed st2 taskId number
        let st4 := Metadata.upload_task_failed st3 taskId
        (st4, Except.error (Err.pieceNotFound (piece_id taskId number)))

/-- Traffic type of a reported piece (`common::v2::TrafficType`). -/
inductive TrafficType where
  | localPeer
  | remotePeer
  | backToSource
  deriving Repr, DecidableEq

/-- The wire `Piece` message as the task orchestrator constructs it
(src/src/task/mod.rs:470, 613, 715, 789), restricted to the fields the
embedded code sets from piece metadata. -/
structure ProtoPiece where
  number : Nat
  parentId : Option String
  offset : Nat
  length : Nat
  digest : String
  trafficType : TrafficType
  deriving Repr, DecidableEq

/-- An outbound `AnnouncePeerRequest` variant on the scheduler stream
(src/src/task/mod.rs; every request also carries host/task/peer ids, which are
invariant over a call and omitted). -/
inductive SchedMsg where
  | registerPeer
  | downloadPeerStarted
  | downloadPieceFinished (piece : ProtoPiece)
  | downloadPieceFailed (pieceNumber : Nat) (parentId : String) (temporary : Bool)
  | downloadPieceBackToSourceFailed (pieceNumber : Nat) (httpStatusCode : Option Nat)
  deriving Repr, DecidableEq

/-- A terminal gRPC status code sent on the progress channel (spec §4.5). -/
inductive GrpcStatus where
  | invalidArgument
  | notFound
  | internalStatus
  deriving Repr, DecidableEq

/-- One item sent on the download progress channel: a
`DownloadTaskResponse{content_length, piece}` or a terminal gRPC status. -/
inductive ProgressItem where
  | response (contentLength : Nat) (piece : ProtoPiece)
  | failure (status : GrpcStatus)
  deriving Repr, DecidableEq

/-- The traffic type a progress item reports, when it is a piece response. -/
def progressTraffic : ProgressItem → Option TrafficType
  | ProgressItem.response _ p => some p.trafficType
  | ProgressItem.failure _ => none

/-- True for a terminal error item on the progress channel. -/
def ProgressItem.isFailure : ProgressItem → Bool
  | ProgressItem.response _ _ => false
  | ProgressItem.failure _ => true

/-- A candidate parent nominated by the scheduler (spec §3), restricted to the
id the embedded code reads. -/
structure Parent where
  id : String
  deriving Repr, DecidableEq

/-- One assignment produced by `Piece::collect_interested_from_remote_peer`:
an interested piece number paired with its chosen parent. -/
structure CollectedPiece where
  number : Nat
  parent : Parent
  deriving Repr, DecidableEq

/-- The per-piece outcomes of the orchestrator's external collaborators:
output-file seeks, the three per-source fetch primitives of `Piece`
(task/piece.rs is not among the given sources, so their outcomes are oracles),
the local piece-metadata lookup, and `write_into_file_and_verify`. -/
structure Env where
  seekOk : Nat → Bool
  localFetch : Nat → Except Err Unit
  remoteFetch : Nat → String → Except Err Unit
  sourceFetch : Nat → Except Err Unit
  getPiece : Nat → Option Piece
  verify : Nat → Except Err Unit

/-- Modelled from the spec: `Piece::remove_finished_from_interested` (§4.4,
task/piece.rs is not among the given sources): set-difference by piece number,
preserving the order of `interested`. -/
def remove_finished_from_interested (finished interested : List Piece) :
    List Piece :=
  interested.filter (fun p => !(finished.any (fun f => f.number == p.number)))

/-- An inbound `AnnouncePeerResponse` from the scheduler
(src/src/task/mod.rs:390-659). For a `NormalTaskResponse` the result of
`collect_interested_from_remote_peer` (task/piece.rs, not among the given
sources) is carried with the message; `malformed` is a message whose
`response` field is `None`. -/
inductive SchedResponse where
  | emptyTask
  | normalTask (collected : List CollectedPiece)
  | needBackToSource
  | malformed
  deriving Repr

/-- Embeds the per-assignment loop of the `NormalTaskResponse` arm of
`Task::download_partial_with_scheduler_into_file` (src/src/task/mod.rs:413-508):
on a `download_from_remote_peer` error it sends
`DownloadPieceFailedRequest{number, parent_id, temporary: true}` and continues;
a missing metadata record or a `write_into_file_and_verify` error aborts via
`?`. Returns the sent scheduler messages, the progress items, and the pieces
finished by this round (or the aborting error). -/
def processRemoteAssignments (env : Env) (contentLength : Nat) :
    List CollectedPiece → List SchedMsg × List ProgressItem × Except Err (List Piece)
  | [] => ([], [], Except.ok [])
  | a :: rest =>
    match env.remoteFetch a.number a.parent.id with
    | Except.error _ =>
        let (ms, ps, r) := processRemoteAssignments env contentLength rest
        (SchedMsg.downloadPieceFailed a.number a.parent.id true :: ms, ps, r)
    | Except.ok _ =>
      match env.getPiece a.number with
      | none => ([], [], Except.error (Err.pieceNotFound (toString a.number)))
      | some md =>
        match env.verify a.number with
        | Except.error e => ([], [], Except.error e)
        | Except.ok _ =>
            let piece : ProtoPiece :=
              { number := md.number, parentId := some a.parent.id,
                offset := md.offset, length := md.length, digest := md.digest,
                trafficType := TrafficType.remotePeer }
            let (ms, ps, r) := processRemoteAssignments env contentLength rest
            (SchedMsg.downloadPieceFinished piece :: ms,
             ProgressItem.response contentLength piece :: ps,
             r.map (md :: ·))

/-- Embeds the per-piece loop of the `NeedBackToSourceResponse` arm of
`Task::download_partial_with_scheduler_into_file` (src/src/task/mod.rs:525-651):
a seek error skips the piece; a `download_from_source` HTTP error sends
`DownloadPieceBackToSourceFailedRequest` with the status and aborts; any other
fetch error sends it with no response and aborts; success commits, reports and
emits `BackToSource` progress. -/
def processBackToSource (env : Env) (contentLength : Nat) :
    List Piece → List SchedMsg × List ProgressItem × Except Err (List Piece)
  | [] => ([], [], Except.ok [])
  | p :: rest =>
    if env.seekOk p.number then
      match env.sourceFetch p.number with
      | Except.error (Err.http s) =>
          ([SchedMsg.downloadPieceBackToSourceFailed p.number (some s)], [],
           Except.error (Err.http s))
      | Except.error e =>
          ([SchedMsg.downloadPieceBackToSourceFailed p.number none], [],
           Except.error e)
      | Except.ok _ =>
        match env.getPiece p.number with
        | none => ([], [], Except.error (Err.pieceNotFound (toString p.number)))
        | some md =>
          match env.verify p.number with
          | Except.error e => ([], [], Except.error e)
          | Except.ok _ =>
              let piece : ProtoPiece :=
                { number := md.number, parentId := none, offset := md.offset,
                  length := md.length, digest := md.digest,
                  trafficType := TrafficType.backToSource }
              let (ms, ps, r) := processBackToSource env contentLength rest
              (SchedMsg.downloadPieceFinished piece :: ms,
               ProgressItem.response contentLength piece :: ps,
               r.map (md :: ·))
    else processBackToSource env contentLength rest

/-- Embeds the response loop of
`Task::download_partial_with_scheduler_into_file` (src/src/task/mod.rs:390-665),
carrying the accumulated `finished_pieces`. `interested` is the outer list the
`NormalTask` completion check compares against; the `NeedBackToSource` arm
shadows it with the residual list and compares against that. Exhausting the
responses is the stream ending, yielding the `not all pieces are downloaded`
error. -/
def schedulerLoop (env : Env) (contentLength : Nat) (interested : List Piece)
    (finished : List Piece) :
    List SchedResponse → List SchedMsg × List ProgressItem × Except Err (List Piece)
  | [] => ([], [],
      Except.error (Err.unknown "not all pieces are downloaded with scheduler"))
  | SchedResponse.malformed :: _ => ([], [], Except.error Err.unexpectedResponse)
  | SchedResponse.emptyTask :: _ => ([], [], Except.ok [])
  | SchedResponse.normalTask collected :: rest =>
      let (ms, ps, r) := processRemoteAssignments env contentLength collected
      match r with
      | Except.error e => (ms, ps, Except.error e)
      | Except.ok roundPieces =>
          let finished' := finished ++ roundPieces
          if finished'.length = interested.length then
            (ms, ps, Except.ok finished')
          else
            let (ms', ps', r') :=
              schedulerLoop env contentLength interested finished' rest
            (ms ++ ms', ps ++ ps', r')
  | SchedResponse.needBackToSource :: rest =>
      let residual := remove_finished_from_interested finished interested
      let (ms, ps, r) := processBackToSource env contentLength residual
      match r with
      | Except.error e => (ms, ps, Except.error e)
      | Except.ok roundPieces =>
          let finished' := finished ++ roundPieces
          if finished'.length = residual.length then
            (ms, ps, Except.ok finished')
          else
            let (ms', ps', r') :=
              schedulerLoop env contentLength interested finished' rest
            (ms ++ ms', ps ++ ps', r')

/-- Embeds `Task::download_partial_with_scheduler_into_file`
(src/src/task/mod.rs:336-666): registers the peer, announces the download
start, then drives the response loop. -/
def download_partial_with_scheduler_into_file (env : Env) (contentLength : Nat)
    (interested : List Piece) (responses : List SchedResponse) :
    List SchedMsg × List ProgressItem × Except Err (List Piece) :=
  let (ms, ps, r) := schedulerLoop env contentLength interested [] responses
  (SchedMsg.registerPeer :: SchedMsg.downloadPeerStarted :: ms, ps, r)

/-- Embeds `Task::download_partial_from_local_peer_into_file`
(src/src/task/mod.rs:670-740): per interested piece, seek (skip on error),
`download_from_local_peer` (skip on error), metadata lookup and
`write_into_file_and_verify` (abort on error via `?`), then a `LocalPeer`
progress item; the finished list collects the interested piece itself. -/
def download_partial_from_local_peer_into_file (env : Env) (contentLength : Nat) :
    List Piece → List ProgressItem × Except Err (List Piece)
  | [] => ([], Except.ok [])
  | p :: rest =>
    if env.seekOk p.number then
      match env.localFetch p.number with
      | Except.error _ =>
          download_partial_from_local_peer_into_file env contentLength rest
      | Except.ok _ =>
        match env.getPiece p.number with
        | none => ([], Except.error (Err.pieceNotFound (toString p.number)))
        | some md =>
          match env.verify p.number with
          | Except.error e => ([], Except.error e)
          | Except.ok _ =>
              let piece : ProtoPiece :=
                { number := md.number, parentId := none, offset := md.offset,
                  length := md.length, digest := md.digest,
                  trafficType := TrafficType.localPeer }
              let (ps, r) :=
                download_partial_from_local_peer_into_file env contentLength rest
              (ProgressItem.response contentLength piece :: ps, r.map (p :: ·))
    else download_partial_from_local_peer_into_file env contentLength rest

/-- The per-piece loop of `Task::download_partial_from_source_into_file`
(src/src/task/mod.rs:760-811): `download_from_source`, metadata lookup and
`write_into_file_and_verify` all abort on error via `?`; each success emits a
progress item whose traffic type is `LocalPeer`. -/
def sourceLoop (env : Env) (contentLength : Nat) :
    List Piece → List ProgressItem × Except Err (List Piece)
  | [] => ([], Except.ok [])
  | p :: rest =>
    match env.sourceFetch p.number with
    | Except.error e => ([], Except.error e)
    | Except.ok _ =>
      match env.getPiece p.number with
      | none => ([], Except.error (Err.pieceNotFound (toString p.number)))
      | some md =>
        match env.verify p.number with
        | Except.error e => ([], Except.error e)
        | Except.ok _ =>
            let piece : ProtoPiece :=
              { number := md.number, parentId := none, offset := md.offset,
                length := md.length, digest := md.digest,
                trafficType := TrafficType.localPeer }
            let (ps, r) := sourceLoop env contentLength rest
            (ProgressItem.response contentLength piece :: ps, r.map (md :: ·))

/-- Embeds `Task::download_partial_from_source_into_file`
(src/src/task/mod.rs:745-823): runs the per-piece loop, then errors with
`not all pieces are downloaded from source` if the finished count falls short. -/
def download_partial_from_source_into_file (env : Env) (contentLength : Nat)
    (interested : List Piece) : List ProgressItem × Except Err (List Piece) :=
  let (ps, r) := sourceLoop env contentLength interested
  match r with
  | Except.error e => (ps, Except.error e)
  | Except.ok finished =>
      if finished.length = interested.length then (ps, Except.ok finished)
      else (ps, Except.error (Err.unknown "not all pieces are downloaded from source"))

/-- Embeds `Task::download_into_file` from the task-finished check onward
(src/src/task/mod.rs:210-331); the preflight steps (timeout conversion, file
open, `calculate_interested`, task lookup) are resolved into the parameters.
When the task is Finished the local drain runs, then the unconditional local
drain runs again (its first return value is discarded); residual pieces go to
the scheduler phase, whose failure triggers the pure-source pass; a terminal
`internal` status follows only a pure-source failure. Returns the scheduler
messages sent and the progress items emitted. -/
def download_into_file (env : Env) (contentLength : Nat) (taskFinished : Bool)
    (interested : List Piece) (responses : List SchedResponse) :
    List SchedMsg × List ProgressItem :=
  match (if taskFinished then
          download_partial_from_local_peer_into_file env contentLength interested
         else ([], Except.ok [])) with
  | (ev1, Except.error _) => ([], ev1 ++ [ProgressItem.failure GrpcStatus.internalStatus])
  | (ev1, Except.ok _) =>
    match download_partial_from_local_peer_into_file env contentLength interested with
    | (ev2, Except.error _) => ([], ev1 ++ ev2 ++ [ProgressItem.failure GrpcStatus.internalStatus])
    | (ev2, Except.ok finished) =>
        let interested2 := remove_finished_from_interested finished interested
        if interested2.isEmpty then ([], ev1 ++ ev2)
        else
          let (ms, ev3, r) :=
            download_partial_with_scheduler_into_file env contentLength
              interested2 responses
          match r with
          | Except.ok _ => (ms, ev1 ++ ev2 ++ ev3)
          | Except.error _ =>
            let (ev4, r4) :=
              download_partial_from_source_into_file env contentLength interested2
            match r4 with
            | Except.ok _ => (ms, ev1 ++ ev2 ++ ev3 ++ ev4)
            | Except.error _ =>
                (ms, ev1 ++ ev2 ++ ev3 ++ ev4 ++ [ProgressItem.failure GrpcStatus.internalStatus])

/-- A task metadata record (`metadata::Task`), restricted to the field
`get_content_length` reads. -/
structure TaskRec where
  content_length : Option Nat
  deriving Repr, DecidableEq

/-- An HTTP header value: either valid UTF-8 (so `to_str()` succeeds) or raw
bytes on which `to_str()` fails. -/
inductive HeaderValue where
  | utf8 (s : String)
  | bytes
  deriving Repr, DecidableEq

/-- Lookup in a response header map (reqwest normalizes names, so lookup is by
the exact lowercase name). -/
def headerGet (h : List (String × HeaderValue)) (k : String) : Option HeaderValue :=
  (h.find? (fun e => e.1 == k)).map (·.2)

/-- Embeds Rust's `str::parse::<u64>()`: an optional leading `+`, then one or
more ASCII digits, rejecting overflow past `2^64 - 1`. -/
def parse_u64 (s : String) : Option Nat :=
  let digits :=
    match s.data with
    | '+' :: rest => rest
    | cs => cs
  if digits.isEmpty then none
  else if digits.all Char.isDigit then
    let v := digits.foldl (fun acc c => acc * 10 + (c.toNat - 48)) 0
    if v < 2 ^ 64 then some v else none
  else none

/-- The HEAD response as `get_content_length` consumes it: its header map. -/
structure HeadResponse where
  header : List (String × HeaderValue)
  deriving Repr, DecidableEq

/-- Embeds `Task::get_content_length` (src/src/task/mod.rs:827-868). The HEAD
call's outcome is the `head` parameter (the HTTP client is external). Returns
whether the HEAD request was issued, the value stored via
`set_task_content_length` (which sets an unset length, the only case reached),
and the call's result. -/
def get_content_length (taskId : String) (task : Option TaskRec)
    (head : Except Err HeadResponse) : Bool × Option Nat × Except Err Nat :=
  match task with
  | none => (false, none, Except.error (Err.taskNotFound taskId))
  | some t =>
    match t.content_length with
    | some contentLength => (false, none, Except.ok contentLength)
    | none =>
      match head with
      | Except.error e => (true, none, Except.error e)
      | Except.ok resp =>
        match headerGet resp.header "content-length" with
        | none => (true, none, Except.error Err.invalidContentLength)
        | some HeaderValue.bytes => (true, none, Except.error Err.invalidContentLength)
        | some (HeaderValue.utf8 s) =>
          match parse_u64 s with
          | none => (true, none, Except.error Err.invalidContentLength)
          | some n => (true, some n, Except.ok n)

/-- Modelled from the spec: `Piece::calculate_interested` (§4.4, task/piece.rs
is not among the given sources). With no range, the pieces covering
`[0, content_length)`: `ceil(cl/pl)` pieces, each of length `piece_length`
except the last, whose length is `content_length - offset`; with a range
`[start, end)`, the pieces intersecting it, boundaries not clipped.
`piece_length = 0` or an unknown `content_length` is `InvalidParameter`. -/
def calculate_interested (pieceLength : Nat) (contentLength : Option Nat)
    (range : Option (Nat × Nat)) : Except Err (List Piece) :=
  match contentLength with
  | none => Except.error Err.invalidParameter
  | some cl =>
    if pieceLength = 0 then Except.error Err.invalidParameter
    else
      let pieces := (List.range ((cl + pieceLength - 1) / pieceLength)).map
        (fun i =>
          { number := i, offset := i * pieceLength,
            length := if (i + 1) * pieceLength ≤ cl then pieceLength
                      else cl - i * pieceLength,
            digest := "", parentId := none,
            state := PieceState.pending : Piece })
      match range with
      | none => Except.ok pieces
      | some (start, stop) =>
          Except.ok (pieces.filter
            (fun p => p.offset < stop && start < p.offset + p.length))

/-- A successful metadata commit appends exactly the commit transition to the
store's log. -/
theorem download_piece_finished_events (st : MetaState) (taskId : String)
    (number offset length : Nat) (digest : String) (parentId : Option String)
    (st' : MetaState)
    (h : Metadata.download_piece_finished st taskId number offset length digest
      parentId = Except.ok st') :
    st'.events = st.events ++
      [MetaEvent.downloadPieceFinishedEv taskId number offset length digest
        parentId] := by
  unfold Metadata.download_piece_finished at h
  dsimp only at h
  split at h
  · split at h
    · exact absurd h (by simp)
    · cases h
      rfl
  · cases h
    rfl

/-- C5: for every call of `Storage.download_piece_from_remote_peer_finished`
where the streamed SHA-256 differs from `expected_digest`, the call returns
`PieceDigestMismatch` and leaves the metadata store untouched (no
`download_piece_finished` commit); when the digests are equal and the commit
succeeds, the commit transition is performed. -/
theorem remote_peer_digest_mismatch_blocks_commit (st : MetaState)
    (taskId : String) (number offset : Nat) (expectedDigest parentId : String)
    (response : WritePieceResponse) :
    (expectedDigest ≠ digestToString response.hash →
      Storage.download_piece_from_remote_peer_finished st taskId number offset
        expectedDigest parentId response =
        (st, Except.error Err.pieceDigestMismatch)) ∧
    (expectedDigest = digestToString response.hash →
      ∀ st', Metadata.download_piece_finished st taskId number offset
          response.length (digestToString response.hash) (some parentId) =
          Except.ok st' →
        Storage.download_piece_from_remote_peer_finished st taskId number offset
          expectedDigest parentId response = (st', Except.ok response.length) ∧
        st'.events = st.events ++
          [MetaEvent.downloadPieceFinishedEv taskId number offset
            response.length (digestToString response.hash) (some parentId)]) := by
  constructor
  · intro h
    unfold Storage.download_piece_from_remote_peer_finished
    simp [h]
  · intro h st' hc
    subst h
    refine ⟨?_, download_piece_finished_events _ _ _ _ _ _ _ _ hc⟩
    unfold Storage.download_piece_from_remote_peer_finished
    simp [hc]

/-- C5 witness: a concrete mismatching digest is rejected without a commit. -/
theorem remote_peer_digest_mismatch_blocks_commit_witness :
    Storage.download_piece_from_remote_peer_finished ⟨[], []⟩ "t" 1 0
      "sha256:aa" "p1" ⟨4, "bb"⟩ =
      (⟨[], []⟩, Except.error Err.pieceDigestMismatch) :=
  (remote_peer_digest_mismatch_blocks_commit ⟨[], []⟩ "t" 1 0 "sha256:aa" "p1"
    ⟨4, "bb"⟩).1 (by decide)

/-- C9: `Storage.download_piece_from_source_finished` commits and returns the
caller-supplied `length`, independent of the byte count the content store
reports, while `Storage.download_piece_from_remote_peer_finished` commits and
returns the actual written byte count. -/
theorem source_commit_uses_supplied_length (st : MetaState) (taskId : String)
    (number offset length actual actual' : Nat) (hash parentId : String)
    (response : WritePieceResponse) :
    Storage.download_piece_from_source_finished st taskId number offset length
        ⟨actual, hash⟩ =
      Storage.download_piece_from_source_finished st taskId number offset length
        ⟨actual', hash⟩ ∧
    (∀ st' v, Storage.download_piece_from_source_finished st taskId number offset
        length ⟨actual, hash⟩ = (st', Except.ok v) →
      v = length ∧ st'.events = st.events ++
        [MetaEvent.downloadPieceFinishedEv taskId number offset length
          (digestToString hash) none]) ∧
    (∀ st' v, Storage.download_piece_from_remote_peer_finished st taskId number
        offset (digestToString response.hash) parentId response =
        (st', Except.ok v) →
      v = response.length ∧ st'.events = st.events ++
        [MetaEvent.downloadPieceFinishedEv taskId number offset response.length
          (digestToString response.hash) (some parentId)]) := by
  refine ⟨rfl, ?_, ?_⟩
  · intro st' v h
    unfold Storage.download_piece_from_source_finished at h
    dsimp only at h
    split at h
    · rename_i st0 hc
      cases h
      exact ⟨rfl, download_piece_finished_events _ _ _ _ _ _ _ _ hc⟩
    · exact absurd h (by simp)
  · intro st' v h
    unfold Storage.download_piece_from_remote_peer_finished at h
    dsimp only at h
    rw [if_neg (by simp)] at h
    split at h
    · rename_i st0 hc
      cases h
      exact ⟨rfl, download_piece_finished_events _ _ _ _ _ _ _ _ hc⟩
    · exact absurd h (by simp)

/-- C9 witness: with a 4-byte actual write and supplied length 10, the source
variant returns 10 and commits length 10; the remote variant returns 4. -/
theorem source_commit_uses_supplied_length_witness :
    (Storage.download_piece_from_source_finished ⟨[], []⟩ "t" 1 0 10 ⟨4, "bb"⟩ =
      Storage.download_piece_from_source_finished ⟨[], []⟩ "t" 1 0 10 ⟨7, "bb"⟩) ∧
    (10 = 10 ∧
      (⟨[(("t" : String), ⟨1, 0, 10, "sha256:bb", none, PieceState.finished⟩)],
        [MetaEvent.downloadPieceFinishedEv "t" 1 0 10 "sha256:bb" none]⟩ :
          MetaState).events =
        ([] : List MetaEvent) ++
          [MetaEvent.downloadPieceFinishedEv "t" 1 0 10 "sha256:bb" none]) :=
  ⟨(source_commit_uses_supplied_length ⟨[], []⟩ "t" 1 0 10 4 7 "bb" "p"
      ⟨4, "bb"⟩).1,
   (source_commit_uses_supplied_length ⟨[], []⟩ "t" 1 0 10 4 7 "bb" "p"
      ⟨4, "bb"⟩).2.1 _ 10 rfl⟩

/-- Every progress item the source loop emits reports `LocalPeer` traffic. -/
theorem sourceLoop_traffic (env : Env) (cl : Nat) :
    ∀ (l : List Piece) (it : ProgressItem), it ∈ (sourceLoop env cl l).1 →
      progressTraffic it = some TrafficType.localPeer := by
  intro l
  induction l with
  | nil => intro it h; simp [sourceLoop] at h
  | cons p rest ih =>
    intro it h
    unfold sourceLoop at h
    rcases hf : env.sourceFetch p.number with e | u <;> rw [hf] at h
    · simp at h
    · rcases hg : env.getPiece p.number with _ | md <;> rw [hg] at h
      · simp at h
      · rcases hv : env.verify p.number with e | v <;> rw [hv] at h
        · simp at h
        · rcases hsl : sourceLoop env cl rest with ⟨ps, r⟩
          rw [hsl] at h
          simp only [List.mem_cons] at h
          rcases h with rfl | h
          · rfl
          · exact ih it (by rw [hsl]; exact h)

/-- C10: every progress event emitted by the pure-source fallback pass carries
`traffic_type = LocalPeer`, not `BackToSource`. -/
theorem source_fallback_traffic_is_local_peer (env : Env) (cl : Nat)
    (interested : List Piece) (it : ProgressItem)
    (h : it ∈ (download_partial_from_source_into_file env cl interested).1) :
    progressTraffic it = some TrafficType.localPeer := by
  unfold download_partial_from_source_into_file at h
  rcases hsl : sourceLoop env cl interested with ⟨ps, r⟩
  rw [hsl] at h
  have hp : it ∈ ps := by
    cases r with
    | error e => simpa using h
    | ok f =>
        by_cases hlen : f.length = interested.length <;> simp [hlen] at h <;>
          exact h
  exact sourceLoop_traffic env cl interested it (by rw [hsl]; exact hp)

/-- C10 witness: a concrete one-piece source pass emits a `LocalPeer` item. -/
theorem source_fallback_traffic_is_local_peer_witness :
    progressTraffic
      (ProgressItem.response 10 ⟨0, none, 0, 4, "d", TrafficType.localPeer⟩) =
      some TrafficType.localPeer :=
  source_fallback_traffic_is_local_peer
    ⟨fun _ => true, fun _ => Except.ok (), fun _ _ => Except.ok (),
     fun _ => Except.ok (),
     fun n => some ⟨n, 0, 4, "d", none, PieceState.finished⟩,
     fun _ => Except.ok ()⟩
    10 [⟨0, 0, 4, "d", none, PieceState.pending⟩] _ (by decide)

/-- C7: `get_content_length` returns a stored content length without issuing
the HEAD request; with no stored length it issues the request and fails with
`InvalidContentLength` when the `Content-Length` header is missing, not valid
UTF-8, or not an unsigned decimal; on a parsable header it stores and returns
the parsed value. -/
theorem get_content_length_contract (taskId : String) (cl n : Nat) (t : TaskRec)
    (head : Except Err HeadResponse) (resp : HeadResponse) (s : String) :
    (t.content_length = some cl →
      get_content_length taskId (some t) head = (false, none, Except.ok cl)) ∧
    (t.content_length = none →
      (headerGet resp.header "content-length" = none ∨
        headerGet resp.header "content-length" = some HeaderValue.bytes ∨
        (headerGet resp.header "content-length" = some (HeaderValue.utf8 s) ∧
          parse_u64 s = none)) →
      get_content_length taskId (some t) (Except.ok resp) =
        (true, none, Except.error Err.invalidContentLength)) ∧
    (t.content_length = none →
      headerGet resp.header "content-length" = some (HeaderValue.utf8 s) →
      parse_u64 s = some n →
      get_content_length taskId (some t) (Except.ok resp) =
        (true, some n, Except.ok n)) := by
  refine ⟨?_, ?_, ?_⟩
  · intro h
    simp [get_content_length, h]
  · intro h hdr
    rcases hdr with h1 | h1 | ⟨h1, h2⟩
    · simp [get_content_length, h, h1]
    · simp [get_content_length, h, h1]
    · simp [get_content_length, h, h1, h2]
  · intro h h1 h2
    simp [get_content_length, h, h1, h2]

/-- C7 witness: a cached length of 5 is returned without a request; with no
cached length and no `Content-Length` header the call fails. -/
theorem get_content_length_contract_witness :
    get_content_length "t" (some ⟨some 5⟩) (Except.ok ⟨[]⟩) =
      (false, none, Except.ok 5) ∧
    get_content_length "t" (some ⟨none⟩) (Except.ok ⟨[]⟩) =
      (true, none, Except.error Err.invalidContentLength) :=
  ⟨(get_content_length_contract "t" 5 0 ⟨some 5⟩ (Except.ok ⟨[]⟩) ⟨[]⟩ "").1 rfl,
   (get_content_length_contract "t" 5 0 ⟨none⟩ (Except.ok ⟨[]⟩) ⟨[]⟩ "").2.1 rfl
     (Or.inl rfl)⟩

/-- C3 counterexample: with a pending record observed until the timeout,
`Storage.download_piece_started` does not return
`WaitForPieceFinishedTimeout` — it reserves the piece (the
`download_piece_started` transition is logged) and returns `Ok`. -/
theorem download_piece_started_timeout_reserves_counterexample :
    Storage.download_piece_started
        ⟨[("t", ⟨5, 0, 0, "", none, PieceState.pending⟩)], []⟩ "t" 5
        [some ⟨5, 0, 0, "", none, PieceState.pending⟩] =
      (⟨[("t", ⟨5, 0, 0, "", none, PieceState.pending⟩)],
        [MetaEvent.downloadPieceStartedEv "t" 5]⟩, Except.ok ()) ∧
    (Storage.download_piece_started
        ⟨[("t", ⟨5, 0, 0, "", none, PieceState.pending⟩)], []⟩ "t" 5
        [some ⟨5, 0, 0, "", none, PieceState.pending⟩]).2 ≠
      Except.error (Err.waitForPieceFinishedTimeout "t-5") := by
  decide

/-- Prefix observations that are all pending do not end the wait; a committed
observation ends it successfully. -/
theorem wait_ok_of_pending_polls (pieceId : String) :
    ∀ (pend : List (Option Piece)) (q : Piece) (rest : List (Option Piece)),
      (∀ x ∈ pend, ∃ p, x = some p ∧ p.is_finished = false) →
      q.is_finished = true →
      Storage.wait_for_piece_finished pieceId (pend ++ some q :: rest) =
        Except.ok () := by
  intro pend
  induction pend with
  | nil =>
      intro q rest _ hq
      simp [Storage.wait_for_piece_finished, hq]
  | cons x xs ih =>
      intro q rest hall hq
      obtain ⟨p, rfl, hp⟩ := hall x (List.mem_cons_self x xs)
      simpa [Storage.wait_for_piece_finished, hp] using
        ih q rest (fun y hy => hall y (List.mem_cons_of_mem _ hy)) hq

/-- C3 amended: a committed record (observed after any pending observations)
short-circuits `Storage.download_piece_started` to `Ok` without reserving;
when the wait fails (timeout or absent record) the call reserves the piece
via `metadata.download_piece_started` and returns `Ok` — the wait error is
swallowed, not surfaced. -/
theorem download_piece_started_amended (st : MetaState) (taskId : String)
    (number : Nat) :
    (∀ (pend : List (Option Piece)) (q : Piece) (rest : List (Option Piece)),
      (∀ x ∈ pend, ∃ p, x = some p ∧ p.is_finished = false) →
      q.is_finished = true →
      Storage.download_piece_started st taskId number (pend ++ some q :: rest) =
        (st, Except.ok ())) ∧
    (∀ (polls : List (Option Piece)) (e : Err),
      Storage.wait_for_piece_finished (piece_id taskId number) polls =
        Except.error e →
      Storage.download_piece_started st taskId number polls =
        (Metadata.download_piece_started st taskId number, Except.ok ())) := by
  constructor
  · intro pend q rest hall hq
    unfold Storage.download_piece_started
    rw [wait_ok_of_pending_polls _ pend q rest hall hq]
  · intro polls e h
    unfold Storage.download_piece_started
    rw [h]

/-- C3 amended witness: one pending observation then a committed one yields an
immediate `Ok` with no reservation; an instantly exhausted wait reserves. -/
theorem download_piece_started_amended_witness :
    Storage.download_piece_started ⟨[], []⟩ "t" 5
        ([some ⟨5, 0, 0, "", none, PieceState.pending⟩] ++
          some ⟨5, 0, 4, "d", none, PieceState.finished⟩ :: []) =
      (⟨[], []⟩, Except.ok ()) ∧
    Storage.download_piece_started ⟨[], []⟩ "t" 5 [] =
      (Metadata.download_piece_started ⟨[], []⟩ "t" 5, Except.ok ()) :=
  ⟨(download_piece_started_amended ⟨[], []⟩ "t" 5).1
      [some ⟨5, 0, 0, "", none, PieceState.pending⟩]
      ⟨5, 0, 4, "d", none, PieceState.finished⟩ []
      (by
        intro x hx
        rw [List.mem_singleton] at hx
        exact ⟨_, hx, rfl⟩)
      rfl,
   (download_piece_started_amended ⟨[], []⟩ "t" 5).2 []
      (Err.waitForPieceFinishedTimeout "t-5") rfl⟩

/-- C4 counterexample: on a wait timeout, `Storage.upload_piece` returns
`WaitForPieceFinishedTimeout` — not `PieceNotFound` — and performs neither
`upload_piece_failed` nor `upload_task_failed`. -/
theorem upload_piece_timeout_counterexample :
    Storage.upload_piece ⟨[], []⟩ "t" 5
        [some ⟨5, 0, 0, "", none, PieceState.pending⟩] none =
      (⟨[], [MetaEvent.uploadTaskStartedEv "t",
             MetaEvent.uploadPieceStartedEv "t" 5]⟩,
       Except.error (Err.waitForPieceFinishedTimeout "t-5")) ∧
    MetaEvent.uploadPieceFailedEv "t" 5 ∉
      (Storage.upload_piece ⟨[], []⟩ "t" 5
        [some ⟨5, 0, 0, "", none, PieceState.pending⟩] none).1.events ∧
    MetaEvent.uploadTaskFailedEv "t" ∉
      (Storage.upload_piece ⟨[], []⟩ "t" 5
        [some ⟨5, 0, 0, "", none, PieceState.pending⟩] none).1.events := by
  decide

/-- C4 amended: a wait error (timeout grows into `WaitForPieceFinishedTimeout`,
an absent record into `PieceNotFound`) propagates from `Storage.upload_piece`
after only the upload-started transitions; the upload-failed transitions and
the `PieceNotFound` return happen exactly when the wait succeeds but the
subsequent `get_piece` finds no record; a found record yields the reader and
the upload-finished transitions. -/
theorem upload_piece_amended (st : MetaState) (taskId : String) (number : Nat)
    (polls : List (Option Piece)) (afterWait : Option Piece) :
    (∀ e, Storage.wait_for_piece_finished (piece_id taskId number) polls =
        Except.error e →
      Storage.upload_piece st taskId number polls afterWait =
        ({ st with events := st.events ++ [MetaEvent.uploadTaskStartedEv taskId,
            MetaEvent.uploadPieceStartedEv taskId number] }, Except.error e)) ∧
    (Storage.wait_for_piece_finished (piece_id taskId number) polls =
        Except.ok () →
      afterWait = none →
      Storage.upload_piece st taskId number polls afterWait =
        ({ st with events := st.events ++ [MetaEvent.uploadTaskStartedEv taskId,
            MetaEvent.uploadPieceStartedEv taskId number,
            MetaEvent.uploadPieceFailedEv taskId number,
            MetaEvent.uploadTaskFailedEv taskId] },
         Except.error (Err.pieceNotFound (piece_id taskId number)))) ∧
    (∀ p, Storage.wait_for_piece_finished (piece_id taskId number) polls =
        Except.ok () →
      afterWait = some p →
      Storage.upload_piece st taskId number polls afterWait =
        ({ st with events := st.events ++ [MetaEvent.uploadTaskStartedEv taskId,
            MetaEvent.uploadPieceStartedEv taskId number,
            MetaEvent.uploadPieceFinishedEv taskId number,
            MetaEvent.uploadTaskFinishedEv taskId] },
         Except.ok ⟨taskId, p.offset, p.length⟩)) := by
  refine ⟨?_, ?_, ?_⟩
  · intro e h
    unfold Storage.upload_piece
    rw [h]
    simp [Metadata.upload_task_started, Metadata.upload_piece_started]
  · intro h ha
    subst ha
    unfold Storage.upload_piece
    rw [h]
    simp [Metadata.upload_task_started, Metadata.upload_piece_started,
      Metadata.upload_piece_failed, Metadata.upload_task_failed]
  · intro p h ha
    subst ha
    unfold Storage.upload_piece
    rw [h]
    simp [Metadata.upload_task_started, Metadata.upload_piece_started,
      Metadata.upload_piece_finished, Metadata.upload_task_finished]

/-- C4 amended witness: an instantly exhausted wait propagates the timeout
error after only the started transitions. -/
theorem upload_piece_amended_witness :
    Storage.upload_piece ⟨[], []⟩ "t" 5 [] none =
      (⟨[], [MetaEvent.uploadTaskStartedEv "t",
             MetaEvent.uploadPieceStartedEv "t" 5]⟩,
       Except.error (Err.waitForPieceFinishedTimeout "t-5")) :=
  (upload_piece_amended ⟨[], []⟩ "t" 5 [] none).1
    (Err.waitForPieceFinishedTimeout "t-5") rfl

/-- An index below the ceiling quotient starts an offset strictly inside the
content. -/
theorem mul_lt_of_lt_ceilDiv (pl cl k : Nat) (h : 0 < pl)
    (hk : k < (cl + pl - 1) / pl) : k * pl < cl := by
  have h2 : (k + 1) * pl ≤ cl + pl - 1 := (Nat.le_div_iff_mul_le h).mp hk
  rw [Nat.succ_mul] at h2
  generalize k * pl = x at h2 ⊢
  omega

/-- The ceiling quotient of pieces covers the whole content. -/
theorem le_ceilDiv_mul (pl cl : Nat) (h : 0 < pl) :
    cl ≤ ((cl + pl - 1) / pl) * pl := by
  have hd := Nat.div_add_mod (cl + pl - 1) pl
  have hm : (cl + pl - 1) % pl < pl := Nat.mod_lt _ h
  rw [Nat.mul_comm] at hd
  generalize (cl + pl - 1) / pl * pl = x at hd ⊢
  omega

/-- The piece lengths of the first `n` pieces sum to `min (n * pl) cl`. -/
theorem piece_lengths_sum (pl cl : Nat) :
    ∀ n, ((List.range n).map
      (fun i => if (i + 1) * pl ≤ cl then pl else cl - i * pl)).sum =
      min (n * pl) cl := by
  intro n
  induction n with
  | zero => simp
  | succ k ih =>
      rw [List.range_succ, List.map_append, List.sum_append]
      simp only [List.map_cons, List.map_nil, List.sum_cons, List.sum_nil]
      rw [ih]
      by_cases hc : (k + 1) * pl ≤ cl
      · rw [if_pos hc]
        rw [Nat.succ_mul] at hc ⊢
        generalize k * pl = x at hc ⊢
        omega
      · rw [if_neg hc]
        rw [Nat.succ_mul] at hc ⊢
        generalize k * pl = x at hc ⊢
        omega

/-- C8: with `piece_length > 0` and a known `content_length`,
`calculate_interested` with no range yields exactly `ceil(cl/pl)` pieces whose
lengths sum to `cl`, every piece but the last of length `pl` and the last of
length `cl - offset`; `piece_length = 0` or an unknown `content_length` fails
with `InvalidParameter`. -/
theorem calculate_interested_no_range (pl cl : Nat) (h : 0 < pl) :
    (∃ ps, calculate_interested pl (some cl) none = Except.ok ps ∧
      ps.length = (cl + pl - 1) / pl ∧
      (ps.map Piece.length).sum = cl ∧
      (∀ i : Fin ps.length, (i : Nat) + 1 < ps.length → (ps.get i).length = pl) ∧
      (∀ i : Fin ps.length, (i : Nat) + 1 = ps.length →
        (ps.get i).length = cl - (ps.get i).offset)) ∧
    calculate_interested 0 (some cl) none = Except.error Err.invalidParameter ∧
    (∀ r, calculate_interested pl none r = Except.error Err.invalidParameter) := by
  have hne : ¬ pl = 0 := Nat.pos_iff_ne_zero.mp h
  refine ⟨?_, by simp [calculate_interested], fun r => rfl⟩
  refine ⟨(List.range ((cl + pl - 1) / pl)).map
    (fun i => ⟨i, i * pl, if (i + 1) * pl ≤ cl then pl else cl - i * pl, "",
      none, PieceState.pending⟩), ?_, ?_, ?_, ?_, ?_⟩
  · simp [calculate_interested, hne]
  · simp
  · rw [List.map_map]
    have hs : ((List.range ((cl + pl - 1) / pl)).map
        (fun i => if (i + 1) * pl ≤ cl then pl else cl - i * pl)).sum =
        min (((cl + pl - 1) / pl) * pl) cl := piece_lengths_sum pl cl _
    calc (List.map (Piece.length ∘ fun i =>
            (⟨i, i * pl, if (i + 1) * pl ≤ cl then pl else cl - i * pl, "",
              none, PieceState.pending⟩ : Piece))
          (List.range ((cl + pl - 1) / pl))).sum
        = min (((cl + pl - 1) / pl) * pl) cl := hs
      _ = cl := min_eq_right (le_ceilDiv_mul pl cl h)
  · intro i hi
    have hlen := i.isLt
    simp only [List.length_map, List.length_range] at hlen hi
    simp only [List.get_eq_getElem, List.getElem_map, List.getElem_range]
    exact if_pos (Nat.le_of_lt (mul_lt_of_lt_ceilDiv pl cl _ h hi))
  · intro i hi
    have hlen := i.isLt
    simp only [List.length_map, List.length_range] at hlen hi
    simp only [List.get_eq_getElem, List.getElem_map, List.getElem_range]
    by_cases hc : ((i : Nat) + 1) * pl ≤ cl
    · rw [if_pos hc]
      have h1 : cl ≤ ((i : Nat) + 1) * pl := by rw [hi]; exact le_ceilDiv_mul pl cl h
      rw [Nat.succ_mul] at hc h1
      generalize (i : Nat) * pl = x at hc h1 ⊢
      omega
    · rw [if_neg hc]

/-- C8 witness: `pl = 4`, `cl = 10` yields three pieces of lengths 4, 4, 2. -/
theorem calculate_interested_no_range_witness :
    ∃ ps, calculate_interested 4 (some 10) none = Except.ok ps ∧
      ps.length = (10 + 4 - 1) / 4 ∧
      (ps.map Piece.length).sum = 10 ∧
      (∀ i : Fin ps.length, (i : Nat) + 1 < ps.length → (ps.get i).length = 4) ∧
      (∀ i : Fin ps.length, (i : Nat) + 1 = ps.length →
        (ps.get i).length = 10 - (ps.get i).offset) :=
  (calculate_interested_no_range 4 10 (by decide)).1

/-- C1 counterexample: an assignment whose fetch succeeds but whose
`write_into_file_and_verify` digest verification fails makes the scheduler
phase abort with that error — no `DownloadPieceFailedRequest` is sent and no
further piece is processed, contrary to the claim that every fetch-or-verify
failure sends the failed request and continues. -/
theorem scheduler_verify_failure_aborts_counterexample :
    download_partial_with_scheduler_into_file
        ⟨fun _ => true, fun _ => Except.ok (), fun _ _ => Except.ok (),
         fun _ => Except.ok (),
         fun n => some ⟨n, 0, 4, "d", none, PieceState.finished⟩,
         fun _ => Except.error Err.pieceDigestMismatch⟩ 10
        [⟨1, 4, 4, "d", none, PieceState.pending⟩]
        [SchedResponse.normalTask [⟨1, ⟨"p1"⟩⟩]] =
      ([SchedMsg.registerPeer, SchedMsg.downloadPeerStarted], [],
       Except.error Err.pieceDigestMismatch) ∧
    SchedMsg.downloadPieceFailed 1 "p1" true ∉
      (download_partial_with_scheduler_into_file
        ⟨fun _ => true, fun _ => Except.ok (), fun _ _ => Except.ok (),
         fun _ => Except.ok (),
         fun n => some ⟨n, 0, 4, "d", none, PieceState.finished⟩,
         fun _ => Except.error Err.pieceDigestMismatch⟩ 10
        [⟨1, 4, 4, "d", none, PieceState.pending⟩]
        [SchedResponse.normalTask [⟨1, ⟨"p1"⟩⟩]]).1 := by
  decide

/-- C1 amended: in the `NormalTask` assignment loop, a `download_from_remote_peer`
failure (which is where a digest mismatch on the remote bytes surfaces) sends
`DownloadPieceFailedRequest{piece_number, parent_id, temporary: true}` and
continues with the remaining assignments, emitting no progress item for that
assignment and leaving the loop's outcome that of the rest; whereas a
`write_into_file_and_verify` failure after a successful fetch aborts the loop
with that error, sending nothing for the piece. -/
theorem remote_fetch_failure_sends_failed_and_continues (env : Env) (cl : Nat)
    (a : CollectedPiece) (rest : List CollectedPiece) :
    (∀ e, env.remoteFetch a.number a.parent.id = Except.error e →
      processRemoteAssignments env cl (a :: rest) =
        (SchedMsg.downloadPieceFailed a.number a.parent.id true ::
            (processRemoteAssignments env cl rest).1,
         (processRemoteAssignments env cl rest).2.1,
         (processRemoteAssignments env cl rest).2.2)) ∧
    (∀ e md, env.remoteFetch a.number a.parent.id = Except.ok () →
      env.getPiece a.number = some md →
      env.verify a.number = Except.error e →
      processRemoteAssignments env cl (a :: rest) =
        ([], [], Except.error e)) := by
  constructor
  · intro e h
    rcases hr : processRemoteAssignments env cl rest with ⟨ms, ps, r⟩
    unfold processRemoteAssignments
    rw [h, hr]
  · intro e md hf hg hv
    unfold processRemoteAssignments
    rw [hf, hg, hv]

/-- C1 amended witness: a concrete failing fetch sends the temporary failed
request and the following successful assignment is still processed. -/
theorem remote_fetch_failure_sends_failed_and_continues_witness :
    processRemoteAssignments
        ⟨fun _ => true, fun _ => Except.ok (),
         fun n _ => if n == 1 then Except.error Err.pieceDigestMismatch
                    else Except.ok (),
         fun _ => Except.ok (),
         fun n => some ⟨n, 0, 4, "d", none, PieceState.finished⟩,
         fun _ => Except.ok ()⟩ 10 [⟨1, ⟨"p1"⟩⟩, ⟨2, ⟨"p2"⟩⟩] =
      (SchedMsg.downloadPieceFailed 1 "p1" true ::
          (processRemoteAssignments
            ⟨fun _ => true, fun _ => Except.ok (),
             fun n _ => if n == 1 then Except.error Err.pieceDigestMismatch
                        else Except.ok (),
             fun _ => Except.ok (),
             fun n => some ⟨n, 0, 4, "d", none, PieceState.finished⟩,
             fun _ => Except.ok ()⟩ 10 [⟨2, ⟨"p2"⟩⟩]).1,
       (processRemoteAssignments
            ⟨fun _ => true, fun _ => Except.ok (),
             fun n _ => if n == 1 then Except.error Err.pieceDigestMismatch
                        else Except.ok (),
             fun _ => Except.ok (),
             fun n => some ⟨n, 0, 4, "d", none, PieceState.finished⟩,
             fun _ => Except.ok ()⟩ 10 [⟨2, ⟨"p2"⟩⟩]).2.1,
       (processRemoteAssignments
            ⟨fun _ => true, fun _ => Except.ok (),
             fun n _ => if n == 1 then Except.error Err.pieceDigestMismatch
                        else Except.ok (),
             fun _ => Except.ok (),
             fun n => some ⟨n, 0, 4, "d", none, PieceState.finished⟩,
             fun _ => Except.ok ()⟩ 10 [⟨2, ⟨"p2"⟩⟩]).2.2) :=
  (remote_fetch_failure_sends_failed_and_continues
    ⟨fun _ => true, fun _ => Except.ok (),
     fun n _ => if n == 1 then Except.error Err.pieceDigestMismatch
                else Except.ok (),
     fun _ => Except.ok (),
     fun n => some ⟨n, 0, 4, "d", none, PieceState.finished⟩,
     fun _ => Except.ok ()⟩ 10 ⟨1, ⟨"p1"⟩⟩ [⟨2, ⟨"p2"⟩⟩]).1
    Err.pieceDigestMismatch rfl

/-- C2: with the task already Finished and three interested pieces committed
locally, `download_into_file` sends no scheduler message and returns after the
local drain, but it emits two `LocalPeer` progress events per piece — six in
total — because the local drain runs twice (once inside the `is_finished`
branch and once unconditionally). -/
theorem finished_task_emits_duplicate_local_events :
    download_into_file
        ⟨fun _ => true, fun _ => Except.ok (), fun _ _ => Except.ok (),
         fun _ => Except.ok (),
         fun n => some ⟨n, 4 * n, if n == 2 then 2 else 4, "d", none,
           PieceState.finished⟩,
         fun _ => Except.ok ()⟩ 10 true
        [⟨0, 0, 4, "d", none, PieceState.finished⟩,
         ⟨1, 4, 4, "d", none, PieceState.finished⟩,
         ⟨2, 8, 2, "d", none, PieceState.finished⟩] [] =
      ([],
       [ProgressItem.response 10 ⟨0, none, 0, 4, "d", TrafficType.localPeer⟩,
        ProgressItem.response 10 ⟨1, none, 4, 4, "d", TrafficType.localPeer⟩,
        ProgressItem.response 10 ⟨2, none, 8, 2, "d", TrafficType.localPeer⟩,
        ProgressItem.response 10 ⟨0, none, 0, 4, "d", TrafficType.localPeer⟩,
        ProgressItem.response 10 ⟨1, none, 4, 4, "d", TrafficType.localPeer⟩,
        ProgressItem.response 10 ⟨2, none, 8, 2, "d", TrafficType.localPeer⟩]) := by
  decide

/-- A progress item that reports a traffic type is not a terminal failure. -/
theorem isFailure_of_traffic (it : ProgressItem) (tt : TrafficType)
    (h : progressTraffic it = some tt) : it.isFailure = false := by
  cases it <;> simp_all [progressTraffic, ProgressItem.isFailure]

/-- The source pass emits the loop's progress items unchanged. -/
theorem source_pass_events (env : Env) (cl : Nat) (interested : List Piece) :
    (download_partial_from_source_into_file env cl interested).1 =
      (sourceLoop env cl interested).1 := by
  unfold download_partial_from_source_into_file
  rcases hsl : sourceLoop env cl interested with ⟨ps, r⟩
  cases r with
  | error e => rfl
  | ok f =>
      dsimp only
      split <;> rfl

/-- The source pass emits no terminal failure item. -/
theorem source_pass_no_failure (env : Env) (cl : Nat) (interested : List Piece)
    (it : ProgressItem)
    (h : it ∈ (download_partial_from_source_into_file env cl interested).1) :
    it.isFailure = false := by
  rw [source_pass_events] at h
  exact isFailure_of_traffic it TrafficType.localPeer
    (sourceLoop_traffic env cl interested it h)

/-- The local drain emits no terminal failure item. -/
theorem localLoop_no_failure (env : Env) (cl : Nat) :
    ∀ (l : List Piece) (it : ProgressItem),
      it ∈ (download_partial_from_local_peer_into_file env cl l).1 →
      it.isFailure = false := by
  intro l
  induction l with
  | nil =>
      intro it h
      simp [download_partial_from_local_peer_into_file] at h
  | cons p rest ih =>
      intro it h
      unfold download_partial_from_local_peer_into_file at h
      cases hs : env.seekOk p.number <;> rw [hs] at h
      · rw [if_neg Bool.false_ne_true] at h
        exact ih it h
      · rw [if_pos rfl] at h
        rcases hf : env.localFetch p.number with e | u <;> rw [hf] at h
        · exact ih it h
        · rcases hg : env.getPiece p.number with _ | md <;> rw [hg] at h
          · simp at h
          · rcases hv : env.verify p.number with e | v <;> rw [hv] at h
            · simp at h
            · rcases hl : download_partial_from_local_peer_into_file env cl rest
                with ⟨ps, r⟩
              rw [hl] at h
              dsimp only at h
              simp only [List.mem_cons] at h
              rcases h with rfl | h
              · rfl
              · exact ih it (by rw [hl]; exact h)

/-- The remote-assignment loop emits no terminal failure item. -/
theorem processRemote_no_failure (env : Env) (cl : Nat) :
    ∀ (l : List CollectedPiece) (it : ProgressItem),
      it ∈ (processRemoteAssignments env cl l).2.1 → it.isFailure = false := by
  intro l
  induction l with
  | nil =>
      intro it h
      simp [processRemoteAssignments] at h
  | cons a rest ih =>
      intro it h
      unfold processRemoteAssignments at h
      rcases hf : env.remoteFetch a.number a.parent.id with e | u <;> rw [hf] at h
      · rcases hr : processRemoteAssignments env cl rest with ⟨ms, ps, r⟩
        rw [hr] at h
        dsimp only at h
        exact ih it (by rw [hr]; exact h)
      · rcases hg : env.getPiece a.number with _ | md <;> rw [hg] at h
        · simp at h
        · rcases hv : env.verify a.number with e | v <;> rw [hv] at h
          · simp at h
          · rcases hr : processRemoteAssignments env cl rest with ⟨ms, ps, r⟩
            rw [hr] at h
            dsimp only at h
            simp only [List.mem_cons] at h
            rcases h with rfl | h
            · rfl
            · exact ih it (by rw [hr]; exact h)

/-- The back-to-source loop emits no terminal failure item. -/
theorem processBackToSource_no_failure (env : Env) (cl : Nat) :
    ∀ (l : List Piece) (it : ProgressItem),
      it ∈ (processBackToSource env cl l).2.1 → it.isFailure = false := by
  intro l
  induction l with
  | nil =>
      intro it h
      simp [processBackToSource] at h
  | cons p rest ih =>
      intro it h
      unfold processBackToSource at h
      cases hs : env.seekOk p.number <;> rw [hs] at h
      · rw [if_neg Bool.false_ne_true] at h
        exact ih it h
      · rw [if_pos rfl] at h
        rcases hf : env.sourceFetch p.number with e | u <;> rw [hf] at h
        · cases e <;> simp at h
        · rcases hg : env.getPiece p.number with _ | md <;> rw [hg] at h
          · simp at h
          · rcases hv : env.verify p.number with e | v <;> rw [hv] at h
            · simp at h
            · rcases hr : processBackToSource env cl rest with ⟨ms, ps, r⟩
              rw [hr] at h
              dsimp only at h
              simp only [List.mem_cons] at h
              rcases h with rfl | h
              · rfl
              · exact ih it (by rw [hr]; exact h)

/-- The scheduler response loop emits no terminal failure item. -/
theorem schedulerLoop_no_failure (env : Env) (cl : Nat) (interested : List Piece) :
    ∀ (rs : List SchedResponse) (finished : List Piece) (it : ProgressItem),
      it ∈ (schedulerLoop env cl interested finished rs).2.1 →
      it.isFailure = false := by
  intro rs
  induction rs with
  | nil =>
      intro finished it h
      simp [schedulerLoop] at h
  | cons r rest ih =>
      intro finished it h
      cases r with
      | malformed => simp [schedulerLoop] at h
      | emptyTask => simp [schedulerLoop] at h
      | normalTask collected =>
          unfold schedulerLoop at h
          rcases hp : processRemoteAssignments env cl collected with ⟨ms, ps, rr⟩
          rw [hp] at h
          cases rr with
          | error e =>
              dsimp only at h
              exact processRemote_no_failure env cl collected it
                (by rw [hp]; exact h)
          | ok roundPieces =>
              dsimp only at h
              by_cases hlen : (finished ++ roundPieces).length = interested.length
              · rw [if_pos hlen] at h
                exact processRemote_no_failure env cl collected it
                  (by rw [hp]; exact h)
              · rw [if_neg hlen] at h
                rcases hsl : schedulerLoop env cl interested
                    (finished ++ roundPieces) rest with ⟨ms', ps', r'⟩
                rw [hsl] at h
                dsimp only at h
                rcases List.mem_append.mp h with h | h
                · exact processRemote_no_failure env cl collected it
                    (by rw [hp]; exact h)
                · exact ih (finished ++ roundPieces) it (by rw [hsl]; exact h)
      | needBackToSource =>
          unfold schedulerLoop at h
          dsimp only at h
          rcases hp : processBackToSource env cl
              (remove_finished_from_interested finished interested)
            with ⟨ms, ps, rr⟩
          rw [hp] at h
          cases rr with
          | error e =>
              dsimp only at h
              exact processBackToSource_no_failure env cl _ it
                (by rw [hp]; exact h)
          | ok roundPieces =>
              dsimp only at h
              by_cases hlen : (finished ++ roundPieces).length =
                  (remove_finished_from_interested finished interested).length
              · rw [if_pos hlen] at h
                exact processBackToSource_no_failure env cl _ it
                  (by rw [hp]; exact h)
              · rw [if_neg hlen] at h
                rcases hsl : schedulerLoop env cl interested
                    (finished ++ roundPieces) rest with ⟨ms', ps', r'⟩
                rw [hsl] at h
                dsimp only at h
                rcases List.mem_append.mp h with h | h
                · exact processBackToSource_no_failure env cl _ it
                    (by rw [hp]; exact h)
                · exact ih (finished ++ roundPieces) it (by rw [hsl]; exact h)

/-- The scheduler phase emits no terminal failure item. -/
theorem sched_phase_no_failure (env : Env) (cl : Nat) (interested : List Piece)
    (responses : List SchedResponse) (it : ProgressItem)
    (h : it ∈ (download_partial_with_scheduler_into_file env cl interested
      responses).2.1) : it.isFailure = false := by
  unfold download_partial_with_scheduler_into_file at h
  rcases hs : schedulerLoop env cl interested [] responses with ⟨ms, ps, r⟩
  rw [hs] at h
  dsimp only at h
  exact schedulerLoop_no_failure env cl interested responses [] it
    (by rw [hs]; exact h)

/-- C6: when the local drain succeeds, residual pieces remain, and the
scheduler phase fails, `download_into_file` runs the pure-source pass over the
residual pieces, and the terminal `internal` failure item is delivered on the
progress channel exactly when that pure-source pass also fails. -/
theorem scheduler_error_triggers_source_fallback (env : Env) (cl : Nat)
    (taskFinished : Bool) (interested : List Piece)
    (responses : List SchedResponse) (finished : List Piece) (e : Err)
    (hd : (download_partial_from_local_peer_into_file env cl interested).2 =
      Except.ok finished)
    (hne : remove_finished_from_interested finished interested ≠ [])
    (hs : (download_partial_with_scheduler_into_file env cl
        (remove_finished_from_interested finished interested) responses).2.2 =
      Except.error e) :
    (∀ fs, (download_partial_from_source_into_file env cl
        (remove_finished_from_interested finished interested)).2 =
        Except.ok fs →
      download_into_file env cl taskFinished interested responses =
        ((download_partial_with_scheduler_into_file env cl
            (remove_finished_from_interested finished interested) responses).1,
         (if taskFinished then
            (download_partial_from_local_peer_into_file env cl interested).1
          else []) ++
          (download_partial_from_local_peer_into_file env cl interested).1 ++
          (download_partial_with_scheduler_into_file env cl
            (remove_finished_from_interested finished interested) responses).2.1 ++
          (download_partial_from_source_into_file env cl
            (remove_finished_from_interested finished interested)).1) ∧
      (∀ it ∈ (download_into_file env cl taskFinished interested responses).2,
        it.isFailure = false)) ∧
    (∀ e2, (download_partial_from_source_into_file env cl
        (remove_finished_from_interested finished interested)).2 =
        Except.error e2 →
      download_into_file env cl taskFinished interested responses =
        ((download_partial_with_scheduler_into_file env cl
            (remove_finished_from_interested finished interested) responses).1,
         (if taskFinished then
            (download_partial_from_local_peer_into_file env cl interested).1
          else []) ++
          (download_partial_from_local_peer_into_file env cl interested).1 ++
          (download_partial_with_scheduler_into_file env cl
            (remove_finished_from_interested finished interested) responses).2.1 ++
          (download_partial_from_source_into_file env cl
            (remove_finished_from_interested finished interested)).1 ++
          [ProgressItem.failure GrpcStatus.internalStatus])) := by
  obtain ⟨q, qs, hres⟩ : ∃ q qs,
      remove_finished_from_interested finished interested = q :: qs := by
    cases hr2 : remove_finished_from_interested finished interested with
    | nil => exact absurd hr2 hne
    | cons q qs => exact ⟨q, qs, rfl⟩
  rw [hres] at hs ⊢
  rcases hdp : download_partial_from_local_peer_into_file env cl interested
    with ⟨ev2, r2⟩
  rw [hdp] at hd
  dsimp only at hd
  subst hd
  rcases hsp : download_partial_with_scheduler_into_file env cl (q :: qs)
      responses with ⟨ms, ev3, r3⟩
  rw [hsp] at hs
  dsimp only at hs
  subst hs
  rcases hop : download_partial_from_source_into_file env cl (q :: qs)
    with ⟨ev4, r4⟩
  have key : download_into_file env cl taskFinished interested responses =
      (ms, match r4 with
        | Except.ok _ =>
            (if taskFinished then ev2 else []) ++ ev2 ++ ev3 ++ ev4
        | Except.error _ =>
            (if taskFinished then ev2 else []) ++ ev2 ++ ev3 ++ ev4 ++
              [ProgressItem.failure GrpcStatus.internalStatus]) := by
    unfold download_into_file
    rw [hdp]
    cases r4 <;> cases taskFinished <;>
      simp [hres, hsp, hop, List.isEmpty_cons, List.append_assoc]
  constructor
  · intro fs hfs
    dsimp only at hfs
    subst hfs
    constructor
    · rw [key]
    · rw [key]
      intro it hit
      dsimp only at hit
      rcases List.mem_append.mp hit with hit | hit
      · rcases List.mem_append.mp hit with hit | hit
        · rcases List.mem_append.mp hit with hit | hit
          · cases taskFinished
            · simp at hit
            · simp only [if_pos] at hit
              exact localLoop_no_failure env cl interested it
                (by rw [hdp]; exact hit)
          · exact localLoop_no_failure env cl interested it
              (by rw [hdp]; exact hit)
        · exact sched_phase_no_failure env cl (q :: qs) responses it
            (by rw [hsp]; exact hit)
      · exact source_pass_no_failure env cl (q :: qs) it
          (by rw [hop]; exact hit)
  · intro e2 he2
    dsimp only at he2
    subst he2
    rw [key]

/-- C6 witness: a concrete run where the drain finishes nothing, the scheduler
stream ends early, and the pure-source pass succeeds — the output carries the
source pass's piece and no terminal failure item. -/
theorem scheduler_error_triggers_source_fallback_witness :
    download_into_file
        ⟨fun _ => true, fun _ => Except.error (Err.unknown "no"),
         fun _ _ => Except.ok (), fun _ => Except.ok (),
         fun n => some ⟨n, 0, 4, "d", none, PieceState.finished⟩,
         fun _ => Except.ok ()⟩ 10 false
        [⟨0, 0, 4, "d", none, PieceState.pending⟩] [] =
      ([SchedMsg.registerPeer, SchedMsg.downloadPeerStarted],
       [ProgressItem.response 10 ⟨0, none, 0, 4, "d", TrafficType.localPeer⟩]) :=
  (((scheduler_error_triggers_source_fallback
      ⟨fun _ => true, fun _ => Except.error (Err.unknown "no"),
       fun _ _ => Except.ok (), fun _ => Except.ok (),
       fun n => some ⟨n, 0, 4, "d", none, PieceState.finished⟩,
       fun _ => Except.ok ()⟩ 10 false
      [⟨0, 0, 4, "d", none, PieceState.pending⟩] [] []
      (Err.unknown "not all pieces are downloaded with scheduler") rfl
      (by decide) rfl).1
    [⟨0, 0, 4, "d", none, PieceState.finished⟩] rfl).1).trans (by decide)

end Dfdaemon
